import Mathlib

/-!
ADS-B receiver ingestion engine: a shallow embedding of `get_adsb_data.py`
(state-store upsert, history append, retention sweep, last-position lookup)
over an explicit SQLite-style database state, together with proofs about the
specified properties.

Modelling conventions:
* SQLite tables are Lean lists of rows; the database maps table names to
  table contents.  The AUTOINCREMENT surrogate key of a positions table is
  carried as an explicit counter.
* A Python dict field that may be missing is an outer `Option`; a field whose
  value may be JSON `null` (Python `None`) is an inner `Option`.
* All statements before `connection.commit()` run inside one transaction:
  a `sqlite3.Error` raised by any of them triggers `rollback()`, restoring the
  database as it was before the call.  Fallibility of the storage layer is
  modelled by a schedule `fails : Nat → Bool` saying which of the successive
  `cursor.execute` / `commit` calls raises.
* Numeric feed payloads (`lat`, `lon`, `ground_speed`, `track`) are carried
  opaquely as rationals; the code never computes with them.
-/

/-- One row of an aircraft state table (`aircraft`, `aircraft_military`, ...):
columns `icao24 TEXT PRIMARY KEY, flight TEXT, first_seen INTEGER,
last_seen INTEGER, squawk`. -/
structure StateRow where
  icao24 : String
  flight : Option String
  first_seen : Int
  last_seen : Int
  squawk : Option String
deriving Repr, DecidableEq

/-- One row of a positions history table: columns `id INTEGER PRIMARY KEY
AUTOINCREMENT, icao24 TEXT, timestamp INTEGER, lat REAL, lon REAL,
altitude INTEGER, ground_speed REAL, track REAL`. -/
structure PosRow where
  id : Nat
  icao24 : String
  timestamp : Int
  lat : Option Rat
  lon : Option Rat
  altitude : Option Int
  ground_speed : Option Rat
  track : Option Rat
deriving Repr, DecidableEq

/-- A positions table: its rows plus the AUTOINCREMENT counter that will be
assigned to the `id` column of the next inserted row. -/
structure PosTable where
  rows : List PosRow
  nextId : Nat
deriving Repr, DecidableEq

/-- The SQLite database file `adsb.db`: a mapping from table names to state
table contents and from table names to positions table contents (the two
namespaces are kept apart because the two kinds of table have different
schemas). -/
structure DB where
  ac : String → List StateRow
  pos : String → PosTable

/-- Overwrite one state table of the database. -/
def DB.setAc (db : DB) (t : String) (v : List StateRow) : DB :=
  { db with ac := fun n => if n = t then v else db.ac n }

/-- Overwrite one positions table of the database. -/
def DB.setPos (db : DB) (t : String) (v : PosTable) : DB :=
  { db with pos := fun n => if n = t then v else db.pos n }

/-- A freshly created database: every table empty, AUTOINCREMENT counters
at 1 (SQLite assigns 1 to the first inserted row). -/
def emptyDB : DB :=
  { ac := fun _ => [], pos := fun _ => { rows := [], nextId := 1 } }

/-- One aircraft dict from the feed, as consumed by `process_aircraft_data`.
`hex := none` models both a missing `hex` key and a `null` value (the code
treats every falsy value the same); for `flight` and `squawk` the outer
`Option` is key presence and the inner `Option` is nullability, because
`aircraft.get('flight', 'N/A')` distinguishes a missing key (default
`'N/A'`) from a present `null` (returned as `None`). -/
structure Sighting where
  hex : Option String
  flight : Option (Option String)
  squawk : Option (Option String)
  lat : Option Rat
  lon : Option Rat
  alt_baro : Option Int
  ground_speed : Option Rat
  track : Option Rat
deriving Repr, DecidableEq

/-- Python `d.get(key, default)` for a string-valued key that may be present
with a `null` value. -/
def dictGetD (v : Option (Option String)) (d : String) : Option String :=
  match v with
  | none => some d
  | some w => w

/-- Python `str.strip()`: remove leading and trailing whitespace, modelled
directly on the character list of the string. -/
def pyStrip (s : String) : String :=
  { data := ((s.data.dropWhile Char.isWhitespace).reverse.dropWhile
      Char.isWhitespace).reverse }

/-- The `if flight: flight = flight.strip()` step: strip only truthy values
(`None` and the empty string pass through unchanged). -/
def stripTruthy (f : Option String) : Option String :=
  match f with
  | none => none
  | some s => if s = "" then some s else some (pyStrip s)

/-- The state upsert statement `INSERT INTO {ac_table} ... ON CONFLICT(icao24)
DO UPDATE SET flight = excluded.flight, squawk = excluded.squawk,
last_seen = excluded.last_seen`: when a row with the key exists, only
`flight`, `squawk` and `last_seen` are rewritten; otherwise a fresh row with
`first_seen = last_seen = ts` is inserted.  The model does not encode the
civilian `aircraft` table's `squawk INTEGER NOT NULL` column constraint
(`dbmigration.py`), under which a null-squawk write would raise an
`IntegrityError` and roll the batch back; concrete statements about
committed rows therefore use only inputs the schema accepts (`flight` is a
nullable column, so a null `flight` does commit). -/
def upsertState (t : List StateRow) (icao : String) (flight squawk : Option String)
    (ts : Int) : List StateRow :=
  if t.any (fun r => r.icao24 == icao) then
    t.map (fun r =>
      if r.icao24 == icao then
        { r with flight := flight, squawk := squawk, last_seen := ts }
      else r)
  else
    t ++ [{ icao24 := icao, flight := flight, first_seen := ts, last_seen := ts,
            squawk := squawk }]

/-- The history insert `INSERT INTO {pos_table} (icao24, timestamp, lat, lon,
altitude, ground_speed, track) VALUES (...)`: append one row, consuming the
AUTOINCREMENT counter. -/
def PosTable.insert (t : PosTable) (icao : String) (ts : Int)
    (lat lon : Option Rat) (alt : Option Int) (gs tr : Option Rat) : PosTable :=
  { rows := t.rows ++ [{ id := t.nextId, icao24 := icao, timestamp := ts,
                         lat := lat, lon := lon, altitude := alt,
                         ground_speed := gs, track := tr }],
    nextId := t.nextId + 1 }

/-- The body of the `for aircraft in aircraft_list` loop of
`process_aircraft_data` for one sighting, without failures: skip when
`aircraft.get('hex')` is falsy, otherwise upsert the state row and append the
history row. -/
def procSighting (db : DB) (ac_table pos_table : String) (ts : Int)
    (a : Sighting) : DB :=
  match a.hex with
  | none => db
  | some icao =>
    if icao = "" then db
    else
      let flight := stripTruthy (dictGetD a.flight "N/A")
      let squawk := dictGetD a.squawk "N/A"
      let db1 := db.setAc ac_table (upsertState (db.ac ac_table) icao flight squawk ts)
      db1.setPos pos_table
        ((db1.pos pos_table).insert icao ts a.lat a.lon a.alt_baro a.ground_speed a.track)

/-- The committed effect of a whole `process_aircraft_data` call on the happy
path: the loop over the batch, with `current_timestamp` fixed once for the
batch. -/
def processBatch (db : DB) (l : List Sighting) (ac_table pos_table : String)
    (ts : Int) : DB :=
  l.foldl (fun d a => procSighting d ac_table pos_table ts a) db

/-- What `process_aircraft_data` reports: the success print with the batch
length, or the `except sqlite3.Error` branch (error printed, transaction
rolled back, normal return), or an exception escaping to the caller — which
the function never produces, since the `except` clause swallows every
`sqlite3.Error`. -/
inductive ProcOutcome where
  | success (n : Nat)
  | loggedError
  | raised
deriving Repr, DecidableEq

/-- The execute calls of the ingestion loop under a failure schedule: each
processed sighting issues two `cursor.execute` calls (state upsert, history
insert), numbered consecutively from `k`.  `none` means some call raised a
`sqlite3.Error`; otherwise the uncommitted database and the index of the next
call are returned.  A failed call aborts the loop, so partial per-sighting
effects are never observable (the transaction is rolled back). -/
def procCalls (fails : Nat → Bool) (ac_table pos_table : String) (ts : Int) :
    List Sighting → DB → Nat → Option (DB × Nat)
  | [], db, k => some (db, k)
  | a :: rest, db, k =>
    match a.hex with
    | none => procCalls fails ac_table pos_table ts rest db k
    | some icao =>
      if icao = "" then procCalls fails ac_table pos_table ts rest db k
      else if fails k || fails (k + 1) then none
      else procCalls fails ac_table pos_table ts rest
        (procSighting db ac_table pos_table ts a) (k + 2)

/-- `process_aircraft_data(aircraft_list, ac_table, pos_table)` under a
failure schedule: run the loop's execute calls, then `connection.commit()`
(one more fallible call); on any `sqlite3.Error` the `except` branch prints
the error and rolls the transaction back, and the function returns normally
— the error never propagates to the caller. -/
def process_aircraft_data (fails : Nat → Bool) (db : DB) (l : List Sighting)
    (ac_table pos_table : String) (ts : Int) : DB × ProcOutcome :=
  match procCalls fails ac_table pos_table ts l db 0 with
  | none => (db, .loggedError)
  | some (db2, k) =>
    if fails k then (db, .loggedError)
    else (db2, .success l.length)

/-- The staleness selection `SELECT icao24 FROM {ac_table} WHERE
last_seen < ?` with the cutoff `now - timeout_seconds`. -/
def staleIds (t : List StateRow) (cutoff : Int) : List String :=
  (t.filter (fun r => r.last_seen < cutoff)).map (fun r => r.icao24)

/-- The cascade delete `DELETE FROM {pos_table} WHERE icao24 IN (...)`:
removes every history row whose `icao24` is among the stale ids (the
AUTOINCREMENT counter is unaffected by deletes). -/
def deletePositions (t : PosTable) (ids : List String) : PosTable :=
  { rows := t.rows.filter (fun p => !(ids.contains p.icao24)), nextId := t.nextId }

/-- The state delete `DELETE FROM {ac_table} WHERE icao24 IN (...)`. -/
def deleteAircraft (t : List StateRow) (ids : List String) : List StateRow :=
  t.filter (fun r => !(ids.contains r.icao24))

/-- What `cleanup_old_aircraft` reports: the removal counts print, the
"no stale aircraft" print (nothing selected, nothing deleted), the
`except sqlite3.Error` branch (error printed, rollback, normal return), or
an exception escaping to the caller — which never happens. -/
inductive CleanOutcome where
  | removed (aircraft positions : Nat)
  | noStale
  | loggedError
  | raised
deriving Repr, DecidableEq

/-- `cleanup_old_aircraft(ac_table, pos_table, timeout_seconds)` under a
failure schedule, with `now` the wall clock read by the function.  Call 0 is
the staleness SELECT, call 1 the positions DELETE, call 2 the aircraft
DELETE (issued strictly after the positions DELETE), call 3 the commit; a
`sqlite3.Error` raised by any of them rolls the transaction back, leaving
the database untouched, and is swallowed.  The reported counts are the
`cursor.rowcount` values of the two DELETE statements. -/
def cleanup_old_aircraft (fails : Nat → Bool) (db : DB)
    (ac_table pos_table : String) (timeout_seconds now : Int) : DB × CleanOutcome :=
  let cutoff := now - timeout_seconds
  if fails 0 then (db, .loggedError)
  else
    let ids := staleIds (db.ac ac_table) cutoff
    if ids.isEmpty then (db, .noStale)
    else if fails 1 then (db, .loggedError)
    else if fails 2 then (db, .loggedError)
    else if fails 3 then (db, .loggedError)
    else
      let db1 := db.setPos pos_table (deletePositions (db.pos pos_table) ids)
      let db2 := db1.setAc ac_table (deleteAircraft (db1.ac ac_table) ids)
      (db2,
       .removed ((db.ac ac_table).filter (fun r => ids.contains r.icao24)).length
         ((db.pos pos_table).rows.filter (fun p => ids.contains p.icao24)).length)

/-- The failure-free schedule: no storage call ever raises. -/
def noFail : Nat → Bool := fun _ => false

/-- The dict `{k: loc[k] for k in loc.keys()}` built by `get_last_location`
from a fetched row: only the selected columns `id, icao24, timestamp, lat,
lon, altitude`. -/
structure LocRow where
  id : Nat
  icao24 : String
  timestamp : Int
  lat : Option Rat
  lon : Option Rat
  altitude : Option Int
deriving Repr, DecidableEq

/-- Projection of a stored positions row onto the columns selected by
`get_last_location`. -/
def PosRow.toLoc (p : PosRow) : LocRow :=
  { id := p.id, icao24 := p.icao24, timestamp := p.timestamp,
    lat := p.lat, lon := p.lon, altitude := p.altitude }

/-- `get_last_location(icao)`: `SELECT id, icao24, timestamp, lat, lon,
altitude FROM positions WHERE icao24 = '{icao}' ORDER BY id` — the table name
`positions` is hard-wired — then `locations.sort(key=lambda x:
x['timestamp'], reverse=True)`, then `locations[0]` if any, else Python's
implicit `None`.  Python's `list.sort` is a stable sort, also with
`reverse=True`: rows with equal timestamps keep their previous
ascending-`id` order.  A stable sort of a list under a total preorder is
unique as a function, so it is rendered here by the stable
`List.insertionSort`. -/
def get_last_location (db : DB) (icao : String) : Option LocRow :=
  let fetched :=
    (List.insertionSort (fun a b => a.id ≤ b.id)
      ((db.pos "positions").rows.filter (fun p => p.icao24 == icao))).map PosRow.toLoc
  let locations := List.insertionSort (fun a b => b.timestamp ≤ a.timestamp) fetched
  locations.head?

/-! ## Concrete fixtures -/

/-- A positions table holding three history rows for `"AAA"` at timestamps
1000, 2000, 2000 with ids 1, 2, 3 (the last two inserted by the same batch). -/
def dbTie : DB :=
  emptyDB.setPos "positions"
    { rows := [ { id := 1, icao24 := "AAA", timestamp := 1000, lat := none,
                  lon := none, altitude := some 100, ground_speed := none, track := none },
                { id := 2, icao24 := "AAA", timestamp := 2000, lat := none,
                  lon := none, altitude := some 200, ground_speed := none, track := none },
                { id := 3, icao24 := "AAA", timestamp := 2000, lat := none,
                  lon := none, altitude := some 300, ground_speed := none, track := none } ],
      nextId := 4 }

/-- A sighting of `"ABC123"` with coordinates, as upserted into the civilian
dataset (tables `aircraft` / `positions`). -/
def sABC : Sighting :=
  { hex := some "ABC123", flight := some (some "AB1 "), squawk := some (some "7001"),
    lat := some 1, lon := some 2, alt_baro := some 3000,
    ground_speed := none, track := none }

/-- The database after upserting `sABC` into the civilian dataset. -/
def dbABC : DB := procSighting emptyDB "aircraft" "positions" 100 sABC

/-- A minimal valid sighting used for failure-schedule scenarios. -/
def sAAA : Sighting :=
  { hex := some "AAA111", flight := none, squawk := none, lat := none,
    lon := none, alt_baro := none, ground_speed := none, track := none }

/-- A sighting whose batch carries timestamp 2000 first, then is replayed with
the older timestamp 1000. -/
def sSWR : Sighting :=
  { hex := some "4b1801", flight := some (some "SWR123 "), squawk := some (some "7000"),
    lat := some 4, lon := some 8, alt_baro := some 30000,
    ground_speed := none, track := none }

/-- State after the first (timestamp 2000) upsert of `sSWR`. -/
def dbSWRa : DB := procSighting emptyDB "aircraft" "positions" 2000 sSWR

/-- State after replaying `sSWR` with the older timestamp 1000. -/
def dbSWRb : DB := procSighting dbSWRa "aircraft" "positions" 1000 sSWR

/-- A sighting whose `hex` key is present but blank. -/
def sBlankHex : Sighting :=
  { hex := some "", flight := some (some "GHOST"), squawk := none, lat := none,
    lon := none, alt_baro := none, ground_speed := none, track := none }

/-- A sighting whose `flight` key is present but `null` and whose `squawk`
is an ordinary string — an input the civilian schema accepts, since the
`aircraft` table's `flight` column is nullable while `squawk` is NOT NULL. -/
def sNullFlight : Sighting :=
  { hex := some "4b1802", flight := some none, squawk := some (some "7000"),
    lat := none, lon := none, alt_baro := none, ground_speed := none, track := none }

/-! ## Claim theorems (corrected and code-bug claims, concrete parts) -/

/-- C1, counterexample: on a history for `"AAA"` with (id, timestamp) pairs
[(1, 1000), (2, 2000), (3, 2000)], `get_last_location` returns the id-2 row,
not the id-3 row of maximum id among the timestamp-2000 ties: the rows are
fetched in ascending id order and Python's stable descending sort keeps that
order inside a tie group, so the EARLIEST-inserted row of the latest
timestamp wins. -/
theorem get_last_location_tie_counterexample :
    (dbTie.pos "positions").rows.map (fun p => (p.id, p.timestamp))
        = [(1, 1000), (2, 2000), (3, 2000)]
      ∧ (get_last_location dbTie "AAA").map (fun r => r.id) = some 2 := by
  decide

/-- C2: upserting `"ABC123"` into dataset A (tables `aircraft` / `positions`)
indeed leaves dataset B's tables (`aircraft_military` / `positions_military`)
empty, but `get_last_location` reads the hard-wired table `positions`
regardless of any dataset, so the new aircraft appears in every last-position
lookup — there is no dataset-scoped lookup that could answer "not found" for
dataset B, contradicting the isolation requirement. -/
theorem dataset_isolation_lookup_bug :
    dbABC.ac "aircraft_military" = []
    ∧ (dbABC.pos "positions_military").rows = []
    ∧ get_last_location dbABC "ABC123"
        = some { id := 1, icao24 := "ABC123", timestamp := 100,
                 lat := some 1, lon := some 2, altitude := some 3000 } := by
  decide

/-- C5, counterexample: when the very first storage write of a batch raises a
`sqlite3.Error`, `process_aircraft_data` rolls the batch back (nothing is
committed: the state table stays empty) but returns normally with the error
merely printed — the `except` clause swallows it, so no `StorageError`
reaches the caller, contrary to the claim. -/
theorem process_swallows_error_counterexample :
    (process_aircraft_data (fun _ => true) emptyDB [sAAA] "aircraft" "positions" 100).2
        = ProcOutcome.loggedError
    ∧ (process_aircraft_data (fun _ => true) emptyDB [sAAA] "aircraft" "positions" 100).2
        ≠ ProcOutcome.raised
    ∧ ((process_aircraft_data (fun _ => true) emptyDB [sAAA] "aircraft" "positions" 100).1.ac
        "aircraft") = [] := by
  decide

/-- C6: the upsert sets `last_seen = excluded.last_seen` unconditionally, so
replaying an aircraft with a batch timestamp (1000) older than the stored
`last_seen` (2000) regresses `last_seen` and breaks `first_seen ≤ last_seen`:
after the replay the single state row has `first_seen = 2000` and
`last_seen = 1000`. -/
theorem last_seen_regression_bug :
    (dbSWRa.ac "aircraft").map (fun r => (r.first_seen, r.last_seen)) = [(2000, 2000)]
    ∧ (dbSWRb.ac "aircraft").map (fun r => (r.first_seen, r.last_seen)) = [(2000, 1000)]
    ∧ (dbSWRb.ac "aircraft").all (fun r => decide (r.last_seen < r.first_seen)) = true := by
  decide

/-- C10, counterexample: a sighting whose `flight` key is present with a
`null` value creates a committed state row whose `flight` is stored as
`null`, not as `'N/A'`: `aircraft.get('flight', 'N/A')` only substitutes the
default when the key is absent, the `if flight:` guard skips `None`, and the
`aircraft` table's `flight` column is nullable, so the row commits — refuting
the conclusion that an ingested state row never has a null `flight` or
`squawk`. -/
theorem null_flight_counterexample :
    (procSighting emptyDB "aircraft" "positions" 5 sNullFlight).ac "aircraft"
        = [{ icao24 := "4b1802", flight := none, first_seen := 5, last_seen := 5,
             squawk := some "7000" }]
    ∧ ((procSighting emptyDB "aircraft" "positions" 5 sNullFlight).ac "aircraft").all
        (fun r => r.flight == none) = true := by
  decide

/-! ## Helper lemmas about the ingestion step -/

/-- For a sighting with a non-blank id, the ingestion step rewrites the state
table by the upsert statement. -/
theorem procSighting_ac (db : DB) (ac_table pos_table : String) (ts : Int)
    (a : Sighting) (icao : String) (hhex : a.hex = some icao) (hne : icao ≠ "") :
    (procSighting db ac_table pos_table ts a).ac ac_table
      = upsertState (db.ac ac_table) icao (stripTruthy (dictGetD a.flight "N/A"))
          (dictGetD a.squawk "N/A") ts := by
  unfold procSighting
  rw [hhex]
  simp [hne, DB.setAc, DB.setPos]

/-- For a sighting with a non-blank id, the ingestion step rewrites the
positions table by the history insert. -/
theorem procSighting_pos (db : DB) (ac_table pos_table : String) (ts : Int)
    (a : Sighting) (icao : String) (hhex : a.hex = some icao) (hne : icao ≠ "") :
    (procSighting db ac_table pos_table ts a).pos pos_table
      = (db.pos pos_table).insert icao ts a.lat a.lon a.alt_baro a.ground_speed
          a.track := by
  unfold procSighting
  rw [hhex]
  simp [hne, DB.setAc, DB.setPos]

/-- Upserting key `icao` leaves the state table with `max (previous count) 1`
rows for that key: the insert branch raises the count from 0 to 1, the update
branch rewrites rows in place. -/
theorem upsertState_countP (t : List StateRow) (icao : String) (fl sq : Option String)
    (ts : Int) :
    (upsertState t icao fl sq ts).countP (fun r => r.icao24 == icao)
      = max (t.countP (fun r => r.icao24 == icao)) 1 := by
  by_cases h : t.any (fun r => r.icao24 == icao)
  · have h1 : 0 < t.countP (fun r => r.icao24 == icao) := by
      rw [List.countP_pos_iff]
      simpa using List.any_eq_true.mp h
    rw [upsertState, if_pos h, List.countP_map]
    have h2 : t.countP ((fun r => r.icao24 == icao) ∘ (fun r =>
        if r.icao24 == icao then { r with flight := fl, squawk := sq, last_seen := ts }
        else r)) = t.countP (fun r => r.icao24 == icao) := by
      apply List.countP_congr
      intro r _
      by_cases hri : r.icao24 = icao
      · simp [hri]
      · simp [hri]
    rw [h2]
    omega
  · have h0 : t.countP (fun r => r.icao24 == icao) = 0 := by
      rw [List.countP_eq_zero]
      intro x hx
      exact (List.any_eq_false.mp (Bool.not_eq_true _ ▸ h) x hx)
    rw [upsertState, if_neg h, List.countP_append, h0]
    simp [List.countP_cons]

/-- The history insert adds exactly one row for its key. -/
theorem insert_rows_countP_self (t : PosTable) (icao : String) (ts : Int)
    (lat lon : Option Rat) (alt : Option Int) (gs tr : Option Rat) :
    (t.insert icao ts lat lon alt gs tr).rows.countP (fun q => q.icao24 == icao)
      = t.rows.countP (fun q => q.icao24 == icao) + 1 := by
  simp [PosTable.insert, List.countP_append, List.countP_cons]

/-- Every row of the upserted table carrying the upserted key holds the new
`flight`, `squawk` and `last_seen` values (rows with other keys are not
constrained). -/
theorem upsertState_mem_matching (t : List StateRow) (icao : String)
    (fl sq : Option String) (ts : Int) :
    ∀ x ∈ upsertState t icao fl sq ts, x.icao24 = icao →
      x.flight = fl ∧ x.squawk = sq ∧ x.last_seen = ts := by
  intro x hx hxi
  by_cases h : t.any (fun r => r.icao24 == icao)
  · rw [upsertState, if_pos h] at hx
    obtain ⟨y, hy, hxy⟩ := List.mem_map.mp hx
    by_cases hyi : (y.icao24 == icao) = true
    · rw [if_pos hyi] at hxy
      subst hxy
      exact ⟨rfl, rfl, rfl⟩
    · rw [if_neg hyi] at hxy
      subst hxy
      exact absurd (beq_iff_eq.mpr hxi) hyi
  · rw [upsertState, if_neg h] at hx
    rcases List.mem_append.mp hx with hx' | hx'
    · have := List.any_eq_false.mp (Bool.not_eq_true _ ▸ h) x hx'
      exact absurd (beq_iff_eq.mpr hxi) this
    · rcases List.mem_singleton.mp hx' with rfl
      exact ⟨rfl, rfl, rfl⟩

/-! ## Claim theorems: skipping and idempotence -/

/-- C9: a sighting whose id is absent or blank is silently skipped: the
ingestion step leaves the database unchanged, the rest of the batch is
processed exactly as if the sighting were not there, and the skipped
sighting issues no storage call at all (so it can raise no error). -/
theorem blank_id_skipped (a : Sighting) (h : a.hex = none ∨ a.hex = some "")
    (fails : Nat → Bool) (db : DB) (l1 l2 rest : List Sighting)
    (ac_table pos_table : String) (ts : Int) (k : Nat) :
    procSighting db ac_table pos_table ts a = db
    ∧ processBatch db (l1 ++ a :: l2) ac_table pos_table ts
        = processBatch db (l1 ++ l2) ac_table pos_table ts
    ∧ procCalls fails ac_table pos_table ts (a :: rest) db k
        = procCalls fails ac_table pos_table ts rest db k := by
  have hskip : ∀ d : DB, procSighting d ac_table pos_table ts a = d := by
    intro d
    rcases h with h | h
    · unfold procSighting
      rw [h]
    · unfold procSighting
      rw [h]
      simp
  refine ⟨hskip db, ?_, ?_⟩
  · simp only [processBatch, List.foldl_append, List.foldl_cons, hskip]
  · rcases h with h | h
    · simp only [procCalls]
      rw [h]
    · simp only [procCalls]
      rw [h]
      simp

/-- C9 witness: the blank-id sighting between two copies of a valid sighting
is skipped without effect. -/
theorem blank_id_skipped_witness :
    (sBlankHex.hex = none ∨ sBlankHex.hex = some "")
    ∧ (procSighting emptyDB "aircraft" "positions" 7 sBlankHex = emptyDB
      ∧ processBatch emptyDB ([sAAA] ++ sBlankHex :: [sAAA]) "aircraft" "positions" 7
          = processBatch emptyDB ([sAAA] ++ [sAAA]) "aircraft" "positions" 7
      ∧ procCalls noFail "aircraft" "positions" 7 (sBlankHex :: [sAAA]) emptyDB 0
          = procCalls noFail "aircraft" "positions" 7 [sAAA] emptyDB 0) :=
  ⟨Or.inr rfl,
   blank_id_skipped sBlankHex (Or.inr rfl) noFail emptyDB [sAAA] [sAAA] [sAAA]
     "aircraft" "positions" 7 0⟩

/-- C8: processing the same sighting twice with the same timestamp, starting
from a database with no rows for its id, leaves exactly one state row for the
id while the history table gains one row per processing — two in total. -/
theorem upsert_idempotent (a : Sighting) (icao : String) (hhex : a.hex = some icao)
    (hne : icao ≠ "") (db : DB) (ac_table pos_table : String) (ts : Int)
    (hs0 : (db.ac ac_table).countP (fun r => r.icao24 == icao) = 0)
    (hp0 : (db.pos pos_table).rows.countP (fun q => q.icao24 == icao) = 0) :
    ((procSighting (procSighting db ac_table pos_table ts a) ac_table pos_table ts
        a).ac ac_table).countP (fun r => r.icao24 == icao) = 1
    ∧ ((procSighting (procSighting db ac_table pos_table ts a) ac_table pos_table ts
        a).pos pos_table).rows.countP (fun q => q.icao24 == icao) = 2 := by
  constructor
  · rw [procSighting_ac _ _ _ _ _ _ hhex hne, procSighting_ac _ _ _ _ _ _ hhex hne,
      upsertState_countP, upsertState_countP, hs0]
    omega
  · rw [procSighting_pos _ _ _ _ _ _ hhex hne, procSighting_pos _ _ _ _ _ _ hhex hne,
      insert_rows_countP_self, insert_rows_countP_self, hp0]

/-- C8 witness: ingesting `sAAA` twice at timestamp 50 into the empty
database. -/
theorem upsert_idempotent_witness :
    ((emptyDB.ac "aircraft").countP (fun r => r.icao24 == "AAA111") = 0)
    ∧ ((procSighting (procSighting emptyDB "aircraft" "positions" 50 sAAA) "aircraft"
          "positions" 50 sAAA).ac "aircraft").countP (fun r => r.icao24 == "AAA111") = 1
    ∧ ((procSighting (procSighting emptyDB "aircraft" "positions" 50 sAAA) "aircraft"
          "positions" 50 sAAA).pos "positions").rows.countP
            (fun q => q.icao24 == "AAA111") = 2 :=
  ⟨rfl,
   upsert_idempotent sAAA "AAA111" rfl (by decide) emptyDB "aircraft" "positions" 50
     rfl rfl⟩

/-! ## Claim theorems: upsert behaviour and default fields -/

/-- C7: upserting a sighting with a non-empty id either appends a fresh row
with `first_seen = last_seen = ts` (when the id is absent from the state
table), or updates exactly the `flight`, `squawk` and `last_seen` fields of
the rows carrying the id, keeping `icao24` and `first_seen` and the table's
length and row order unchanged and leaving every other row untouched; in
neither case is a row deleted.  Under the primary-key invariant (one row per
id) the update touches exactly one row. -/
theorem upsert_state_behavior (a : Sighting) (icao : String) (hhex : a.hex = some icao)
    (hne : icao ≠ "") (db : DB) (ac_table pos_table : String) (ts : Int) :
    (((db.ac ac_table).all fun r => !(r.icao24 == icao)) = true →
      (procSighting db ac_table pos_table ts a).ac ac_table
        = db.ac ac_table
          ++ [{ icao24 := icao, flight := stripTruthy (dictGetD a.flight "N/A"),
                first_seen := ts, last_seen := ts,
                squawk := dictGetD a.squawk "N/A" }])
    ∧ (((db.ac ac_table).any fun r => r.icao24 == icao) = true →
        ((procSighting db ac_table pos_table ts a).ac ac_table).length
            = (db.ac ac_table).length
        ∧ ((procSighting db ac_table pos_table ts a).ac ac_table).map
              (fun x => (x.icao24, x.first_seen))
            = (db.ac ac_table).map (fun x => (x.icao24, x.first_seen))
        ∧ (∀ x ∈ (procSighting db ac_table pos_table ts a).ac ac_table,
            x.icao24 = icao →
              x.flight = stripTruthy (dictGetD a.flight "N/A")
              ∧ x.squawk = dictGetD a.squawk "N/A"
              ∧ x.last_seen = ts)
        ∧ ∀ x ∈ db.ac ac_table, x.icao24 ≠ icao →
            x ∈ (procSighting db ac_table pos_table ts a).ac ac_table) := by
  have hac := procSighting_ac db ac_table pos_table ts a icao hhex hne
  constructor
  · intro hall
    have hany : ((db.ac ac_table).any fun r => r.icao24 == icao) = false := by
      rw [List.any_eq_false]
      intro x hx
      simpa using List.all_eq_true.mp hall x hx
    rw [hac, upsertState, if_neg (by simp [hany])]
  · intro hany
    refine ⟨?_, ?_, ?_, ?_⟩
    · rw [hac, upsertState, if_pos hany]
      simp
    · rw [hac, upsertState, if_pos hany, List.map_map]
      apply List.map_congr_left
      intro x _
      by_cases hxi : x.icao24 = icao
      · simp [hxi]
      · simp [hxi]
    · rw [hac]
      exact upsertState_mem_matching _ _ _ _ _
    · intro x hx hxi
      rw [hac, upsertState, if_pos hany]
      refine List.mem_map.mpr ⟨x, hx, ?_⟩
      rw [if_neg (by simpa using hxi)]

/-- The database after the first upsert of the specification scenario: flight
`"SWR123 "` (trailing blank) at timestamp 1000. -/
def dbSWR1000 : DB := procSighting emptyDB "aircraft" "positions" 1000 sSWR

/-- The second sighting of the specification scenario: same id, flight
`"SWR123"`, at timestamp 2000. -/
def sSWR2 : Sighting :=
  { hex := some "4b1801", flight := some (some "SWR123"), squawk := some (some "7000"),
    lat := some (95 / 2), lon := some (87 / 10), alt_baro := some 38000,
    ground_speed := none, track := none }

/-- C7 witness: re-upserting id `"4b1801"` at timestamp 2000 over the state
produced by the timestamp-1000 upsert. -/
theorem upsert_state_behavior_witness :
    sSWR2.hex = some "4b1801"
    ∧ ("4b1801" : String) ≠ ""
    ∧ ((((dbSWR1000.ac "aircraft").all fun r => !(r.icao24 == "4b1801")) = true →
        (procSighting dbSWR1000 "aircraft" "positions" 2000 sSWR2).ac "aircraft"
          = dbSWR1000.ac "aircraft"
            ++ [{ icao24 := "4b1801",
                  flight := stripTruthy (dictGetD sSWR2.flight "N/A"),
                  first_seen := 2000, last_seen := 2000,
                  squawk := dictGetD sSWR2.squawk "N/A" }])
      ∧ (((dbSWR1000.ac "aircraft").any fun r => r.icao24 == "4b1801") = true →
          ((procSighting dbSWR1000 "aircraft" "positions" 2000 sSWR2).ac
              "aircraft").length = (dbSWR1000.ac "aircraft").length
          ∧ ((procSighting dbSWR1000 "aircraft" "positions" 2000 sSWR2).ac
                "aircraft").map (fun x => (x.icao24, x.first_seen))
              = (dbSWR1000.ac "aircraft").map (fun x => (x.icao24, x.first_seen))
          ∧ (∀ x ∈ (procSighting dbSWR1000 "aircraft" "positions" 2000 sSWR2).ac
                "aircraft", x.icao24 = "4b1801" →
                x.flight = stripTruthy (dictGetD sSWR2.flight "N/A")
                ∧ x.squawk = dictGetD sSWR2.squawk "N/A"
                ∧ x.last_seen = 2000)
          ∧ ∀ x ∈ dbSWR1000.ac "aircraft", x.icao24 ≠ "4b1801" →
              x ∈ (procSighting dbSWR1000 "aircraft" "positions" 2000 sSWR2).ac
                "aircraft")) :=
  ⟨rfl, by decide,
   upsert_state_behavior sSWR2 "4b1801" rfl (by decide) dbSWR1000 "aircraft"
     "positions" 2000⟩

/-- C10, amended: for every upserted sighting with a non-empty id, each of
the `flight` and `squawk` fields whose key is absent from the sighting dict
is stored as the literal string `'N/A'` in every state row written for that
id — each field independently of the other; a stored null in those fields
can only come from a key present with an explicit `null` value. -/
theorem absent_fields_default_na (a : Sighting) (icao : String)
    (hhex : a.hex = some icao) (hne : icao ≠ "")
    (db : DB) (ac_table pos_table : String) (ts : Int) :
    ∀ r ∈ (procSighting db ac_table pos_table ts a).ac ac_table, r.icao24 = icao →
      (a.flight = none → r.flight = some "N/A")
      ∧ (a.squawk = none → r.squawk = some "N/A") := by
  intro r hr hri
  rw [procSighting_ac db ac_table pos_table ts a icao hhex hne] at hr
  have h := upsertState_mem_matching _ _ _ _ _ r hr hri
  have hNA : stripTruthy (dictGetD none "N/A") = some "N/A" := by decide
  have hNA2 : dictGetD (none : Option (Option String)) "N/A" = some "N/A" := rfl
  constructor
  · intro hfl
    rw [h.1, hfl, hNA]
  · intro hsq
    rw [h.2.1, hsq, hNA2]

/-- A sighting whose `flight` key alone is absent while `squawk` is present
as a string. -/
def sFlightAbsent : Sighting :=
  { hex := some "AB12CD", flight := none, squawk := some (some "7000"),
    lat := none, lon := none, alt_baro := none, ground_speed := none, track := none }

/-- C10 witness: ingesting `sFlightAbsent`, whose dict lacks the `flight` key
but carries a `squawk` string, defaults exactly the absent field. -/
theorem absent_fields_default_na_witness :
    sFlightAbsent.flight = none
    ∧ sFlightAbsent.squawk = some (some "7000")
    ∧ ∀ r ∈ (procSighting emptyDB "aircraft" "positions" 9 sFlightAbsent).ac
        "aircraft", r.icao24 = "AB12CD" →
          (sFlightAbsent.flight = none → r.flight = some "N/A")
          ∧ (sFlightAbsent.squawk = none → r.squawk = some "N/A") :=
  ⟨rfl, rfl,
   absent_fields_default_na sFlightAbsent "AB12CD" rfl (by decide) emptyDB "aircraft"
     "positions" 9⟩

/-! ## Claim theorems: batch failure handling -/

/-- When every storage call of the loop succeeds, the uncommitted database at
commit time is exactly the pure batch effect. -/
theorem procCalls_ok (fails : Nat → Bool) (ac_table pos_table : String) (ts : Int) :
    ∀ (l : List Sighting) (db : DB) (k : Nat) (db2 : DB) (k2 : Nat),
      procCalls fails ac_table pos_table ts l db k = some (db2, k2) →
      db2 = processBatch db l ac_table pos_table ts := by
  intro l
  induction l with
  | nil =>
    intro db k db2 k2 h
    simp only [procCalls, Option.some.injEq, Prod.mk.injEq] at h
    simp [processBatch, ← h.1]
  | cons a rest ih =>
    intro db k db2 k2 h
    cases hhex : a.hex with
    | none =>
      simp only [procCalls, hhex] at h
      have hrest := ih db k db2 k2 h
      simp only [processBatch, List.foldl_cons] at hrest ⊢
      rwa [show procSighting db ac_table pos_table ts a = db by
        unfold procSighting; rw [hhex]]
    | some icao =>
      simp only [procCalls, hhex] at h
      split at h
      · rename_i hic
        have hrest := ih db k db2 k2 h
        simp only [processBatch, List.foldl_cons] at hrest ⊢
        rwa [show procSighting db ac_table pos_table ts a = db by
          unfold procSighting; rw [hhex]; simp [hic]]
      · split at h
        · cases h
        · have hrest := ih _ _ db2 k2 h
          simp only [processBatch, List.foldl_cons] at hrest ⊢
          exact hrest

/-- C5, amended: a storage failure anywhere in the batch rolls the whole
batch back (the committed database is unchanged) and is caught and logged —
`process_aircraft_data` returns normally, never letting the error reach its
caller; the success message is printed, with the full batch length, exactly
when every record's two writes and the commit succeeded, in which case the
committed database is the full batch effect. -/
theorem process_error_logged_and_rolled_back (fails : Nat → Bool) (db : DB)
    (l : List Sighting) (ac_table pos_table : String) (ts : Int) :
    (process_aircraft_data fails db l ac_table pos_table ts).2 ≠ ProcOutcome.raised
    ∧ ((process_aircraft_data fails db l ac_table pos_table ts).2
          = ProcOutcome.loggedError →
        (process_aircraft_data fails db l ac_table pos_table ts).1 = db)
    ∧ ∀ n, (process_aircraft_data fails db l ac_table pos_table ts).2
          = ProcOutcome.success n →
        n = l.length
        ∧ (process_aircraft_data fails db l ac_table pos_table ts).1
            = processBatch db l ac_table pos_table ts := by
  unfold process_aircraft_data
  cases hc : procCalls fails ac_table pos_table ts l db 0 with
  | none => simp
  | some p =>
    obtain ⟨db2, k⟩ := p
    by_cases hf : fails k = true
    · simp [hf]
    · simp only [Bool.not_eq_true] at hf
      simp only [hf, Bool.false_eq_true, if_false]
      refine ⟨by simp, by simp, ?_⟩
      intro n hn
      have hn' : n = l.length := by
        cases hn
        rfl
      exact ⟨hn', by
        simpa using (procCalls_ok fails ac_table pos_table ts l db 0 db2 k hc).symm ▸ rfl⟩

/-- The schedule on which exactly the first storage call raises. -/
def failFirst : Nat → Bool := fun k => k == 0

/-- C5 witness: with the first write of a one-sighting batch failing, the
outcome is the logged-error branch and the committed database is unchanged. -/
theorem process_error_logged_and_rolled_back_witness :
    (process_aircraft_data failFirst emptyDB [sAAA] "aircraft" "positions" 11).2
        = ProcOutcome.loggedError
    ∧ (process_aircraft_data failFirst emptyDB [sAAA] "aircraft" "positions" 11).1
        = emptyDB :=
  ⟨by decide,
   (process_error_logged_and_rolled_back failFirst emptyDB [sAAA] "aircraft"
      "positions" 11).2.1 (by decide)⟩

/-! ## Claim theorems: retention sweep -/

/-- C3: the sweep is atomic.  Under every failure schedule the committed
database is either exactly the pre-sweep database or exactly the database
with both the history deletion and the state deletion applied; whenever the
error branch is taken the database is untouched; in particular a failure
injected between the history deletion (call 1) and the state deletion
(call 2) leaves every table as it was; and referential integrity (every
history row owned by some state row) is preserved by every outcome. -/
theorem cleanup_atomic (fails : Nat → Bool) (db : DB) (ac_table pos_table : String)
    (timeout_seconds now : Int) :
    ((cleanup_old_aircraft fails db ac_table pos_table timeout_seconds now).1 = db
      ∨ (cleanup_old_aircraft fails db ac_table pos_table timeout_seconds now).1
          = (db.setPos pos_table (deletePositions (db.pos pos_table)
                (staleIds (db.ac ac_table) (now - timeout_seconds)))).setAc ac_table
              (deleteAircraft (db.ac ac_table)
                (staleIds (db.ac ac_table) (now - timeout_seconds))))
    ∧ ((cleanup_old_aircraft fails db ac_table pos_table timeout_seconds now).2
          = CleanOutcome.loggedError →
        (cleanup_old_aircraft fails db ac_table pos_table timeout_seconds now).1 = db)
    ∧ (fails 2 = true →
        (cleanup_old_aircraft fails db ac_table pos_table timeout_seconds now).1 = db)
    ∧ ((∀ p ∈ (db.pos pos_table).rows, ∃ r ∈ db.ac ac_table, r.icao24 = p.icao24) →
        ∀ p ∈ ((cleanup_old_aircraft fails db ac_table pos_table timeout_seconds
            now).1.pos pos_table).rows,
          ∃ r ∈ (cleanup_old_aircraft fails db ac_table pos_table timeout_seconds
              now).1.ac ac_table, r.icao24 = p.icao24) := by
  by_cases h0 : fails 0 = true
  · rw [show cleanup_old_aircraft fails db ac_table pos_table timeout_seconds now
        = (db, CleanOutcome.loggedError) by unfold cleanup_old_aircraft; rw [if_pos h0]]
    exact ⟨Or.inl rfl, fun _ => rfl, fun _ => rfl, fun h => h⟩
  · by_cases he : (staleIds (db.ac ac_table) (now - timeout_seconds)).isEmpty = true
    · rw [show cleanup_old_aircraft fails db ac_table pos_table timeout_seconds now
          = (db, CleanOutcome.noStale) by
        unfold cleanup_old_aircraft
        rw [if_neg h0, if_pos he]]
      exact ⟨Or.inl rfl, fun h => CleanOutcome.noConfusion h, fun _ => rfl, fun h => h⟩
    · by_cases h1 : fails 1 = true
      · rw [show cleanup_old_aircraft fails db ac_table pos_table timeout_seconds now
            = (db, CleanOutcome.loggedError) by
          unfold cleanup_old_aircraft
          rw [if_neg h0, if_neg he, if_pos h1]]
        exact ⟨Or.inl rfl, fun _ => rfl, fun _ => rfl, fun h => h⟩
      · by_cases h2 : fails 2 = true
        · rw [show cleanup_old_aircraft fails db ac_table pos_table timeout_seconds now
              = (db, CleanOutcome.loggedError) by
            unfold cleanup_old_aircraft
            rw [if_neg h0, if_neg he, if_neg h1, if_pos h2]]
          exact ⟨Or.inl rfl, fun _ => rfl, fun _ => rfl, fun h => h⟩
        · by_cases h3 : fails 3 = true
          · rw [show cleanup_old_aircraft fails db ac_table pos_table timeout_seconds now
                = (db, CleanOutcome.loggedError) by
              unfold cleanup_old_aircraft
              rw [if_neg h0, if_neg he, if_neg h1, if_neg h2, if_pos h3]]
            exact ⟨Or.inl rfl, fun _ => rfl, fun _ => rfl, fun h => h⟩
          · have hres : cleanup_old_aircraft fails db ac_table pos_table timeout_seconds
                now
                = ((db.setPos pos_table (deletePositions (db.pos pos_table)
                      (staleIds (db.ac ac_table) (now - timeout_seconds)))).setAc
                    ac_table (deleteAircraft (db.ac ac_table)
                      (staleIds (db.ac ac_table) (now - timeout_seconds))),
                   CleanOutcome.removed
                     ((db.ac ac_table).filter (fun r => (staleIds (db.ac ac_table)
                        (now - timeout_seconds)).contains r.icao24)).length
                     ((db.pos pos_table).rows.filter (fun p => (staleIds (db.ac ac_table)
                        (now - timeout_seconds)).contains p.icao24)).length) := by
              unfold cleanup_old_aircraft
              rw [if_neg h0, if_neg he, if_neg h1, if_neg h2, if_neg h3]
              simp [DB.setPos]
            rw [hres]
            refine ⟨Or.inr rfl, fun h => CleanOutcome.noConfusion h, fun h => absurd h h2, ?_⟩
            intro hint p hp
            simp only [DB.setAc, DB.setPos, deletePositions, deleteAircraft,
              eq_self_iff_true, if_true] at hp ⊢
            have hp' := List.mem_filter.mp hp
            obtain ⟨r, hr, hri⟩ := hint p hp'.1
            refine ⟨r, List.mem_filter.mpr ⟨hr, ?_⟩, hri⟩
            rw [hri]
            exact hp'.2

/-- C3 witness: with a failure injected exactly at the aircraft DELETE
(call 2) and a genuinely stale aircraft present, the sweep leaves the
database untouched and reports the logged error. -/
theorem cleanup_atomic_witness :
    (cleanup_old_aircraft (fun k => k == 2) dbSWRa "aircraft" "positions" 10 5000).2
        = CleanOutcome.loggedError
    ∧ (cleanup_old_aircraft (fun k => k == 2) dbSWRa "aircraft" "positions" 10
        5000).1 = dbSWRa :=
  ⟨by decide,
   (cleanup_atomic (fun k => k == 2) dbSWRa "aircraft" "positions" 10 5000).2.2.1
     (by decide)⟩

/-- Membership in the staleness selection. -/
theorem mem_staleIds (t : List StateRow) (cutoff : Int) (s : String) :
    s ∈ staleIds t cutoff ↔ ∃ y, y ∈ t ∧ y.last_seen < cutoff ∧ y.icao24 = s := by
  simp only [staleIds, List.mem_map, List.mem_filter, decide_eq_true_eq]
  constructor
  · rintro ⟨y, ⟨hy, hlt⟩, rfl⟩
    exact ⟨y, hy, hlt, rfl⟩
  · rintro ⟨y, hy, hlt, rfl⟩
    exact ⟨y, ⟨hy, hlt⟩, rfl⟩

/-- Boolean `contains` agrees with list membership for strings. -/
theorem contains_iff_mem_str (ids : List String) (s : String) :
    ids.contains s = true ↔ s ∈ ids := by
  simp [List.contains]

/-- On the failure-free schedule with a non-empty stale selection, the sweep
commits both deletions. -/
theorem cleanup_noFail_success (db : DB) (ac_table pos_table : String)
    (timeout_seconds now : Int)
    (hne : (staleIds (db.ac ac_table) (now - timeout_seconds)).isEmpty = false) :
    (cleanup_old_aircraft noFail db ac_table pos_table timeout_seconds now).1.ac
        ac_table
      = deleteAircraft (db.ac ac_table)
          (staleIds (db.ac ac_table) (now - timeout_seconds))
    ∧ ((cleanup_old_aircraft noFail db ac_table pos_table timeout_seconds now).1.pos
        pos_table).rows
      = (db.pos pos_table).rows.filter
          (fun p => !((staleIds (db.ac ac_table)
              (now - timeout_seconds)).contains p.icao24)) := by
  unfold cleanup_old_aircraft noFail
  simp [hne, DB.setAc, DB.setPos, deletePositions]

/-- C4: after a failure-free sweep, every aircraft whose stored `last_seen`
is older than `now - timeout_seconds` has its state row and all its history
rows absent, every aircraft with `now - last_seen ≤ timeout_seconds` keeps
its state row and all its history rows, an empty stale selection returns the
no-stale report with the database untouched, and the history deletion (the
first committed delete) does not touch the state table, state rows being
deleted only afterwards. -/
theorem cleanup_sweep_correct (db : DB) (ac_table pos_table : String)
    (timeout_seconds now : Int)
    (hnd : ((db.ac ac_table).map (fun r => r.icao24)).Nodup) :
    (∀ r ∈ db.ac ac_table, r.last_seen < now - timeout_seconds →
        (∀ x ∈ (cleanup_old_aircraft noFail db ac_table pos_table timeout_seconds
            now).1.ac ac_table, x.icao24 ≠ r.icao24)
        ∧ ∀ p ∈ ((cleanup_old_aircraft noFail db ac_table pos_table timeout_seconds
            now).1.pos pos_table).rows, p.icao24 ≠ r.icao24)
    ∧ (∀ r ∈ db.ac ac_table, now - r.last_seen ≤ timeout_seconds →
        r ∈ (cleanup_old_aircraft noFail db ac_table pos_table timeout_seconds
            now).1.ac ac_table
        ∧ ∀ p ∈ (db.pos pos_table).rows, p.icao24 = r.icao24 →
            p ∈ ((cleanup_old_aircraft noFail db ac_table pos_table timeout_seconds
              now).1.pos pos_table).rows)
    ∧ (staleIds (db.ac ac_table) (now - timeout_seconds) = [] →
        cleanup_old_aircraft noFail db ac_table pos_table timeout_seconds now
          = (db, CleanOutcome.noStale))
    ∧ (db.setPos pos_table (deletePositions (db.pos pos_table)
          (staleIds (db.ac ac_table) (now - timeout_seconds)))).ac ac_table
        = db.ac ac_table := by
  have hnoStale : (staleIds (db.ac ac_table) (now - timeout_seconds)).isEmpty = true →
      cleanup_old_aircraft noFail db ac_table pos_table timeout_seconds now
        = (db, CleanOutcome.noStale) := by
    intro hemp
    unfold cleanup_old_aircraft noFail
    simp [hemp]
  have hfreshNotMem : ∀ r ∈ db.ac ac_table, now - r.last_seen ≤ timeout_seconds →
      r.icao24 ∉ staleIds (db.ac ac_table) (now - timeout_seconds) := by
    intro r hr hfresh hmem
    obtain ⟨y, hy, hylt, hyi⟩ := (mem_staleIds _ _ _).mp hmem
    have : y = r := List.inj_on_of_nodup_map hnd hy hr hyi
    subst this
    omega
  by_cases hemp : (staleIds (db.ac ac_table) (now - timeout_seconds)).isEmpty = true
  · have hids : staleIds (db.ac ac_table) (now - timeout_seconds) = [] :=
      List.isEmpty_iff.mp hemp
    rw [hnoStale hemp]
    refine ⟨?_, ?_, fun _ => rfl, by simp [DB.setPos]⟩
    · intro r hr hstale
      have : r.icao24 ∈ staleIds (db.ac ac_table) (now - timeout_seconds) :=
        (mem_staleIds _ _ _).mpr ⟨r, hr, hstale, rfl⟩
      rw [hids] at this
      cases this
    · intro r hr _
      exact ⟨hr, fun p hp _ => hp⟩
  · have hne : (staleIds (db.ac ac_table) (now - timeout_seconds)).isEmpty = false :=
      Bool.not_eq_true _ ▸ hemp
    obtain ⟨hacEq, hposEq⟩ :=
      cleanup_noFail_success db ac_table pos_table timeout_seconds now hne
    refine ⟨?_, ?_, ?_, by simp [DB.setPos]⟩
    · intro r hr hstale
      have hrmem : r.icao24 ∈ staleIds (db.ac ac_table) (now - timeout_seconds) :=
        (mem_staleIds _ _ _).mpr ⟨r, hr, hstale, rfl⟩
      constructor
      · intro x hx hxr
        rw [hacEq] at hx
        have hx' := List.mem_filter.mp hx
        have : (staleIds (db.ac ac_table) (now - timeout_seconds)).contains x.icao24
            = true := (contains_iff_mem_str _ _).mpr (hxr ▸ hrmem)
        rw [this] at hx'
        exact absurd hx'.2 (by simp)
      · intro p hp hpr
        rw [hposEq] at hp
        have hp' := List.mem_filter.mp hp
        have : (staleIds (db.ac ac_table) (now - timeout_seconds)).contains p.icao24
            = true := (contains_iff_mem_str _ _).mpr (hpr ▸ hrmem)
        rw [this] at hp'
        exact absurd hp'.2 (by simp)
    · intro r hr hfresh
      have hnot := hfreshNotMem r hr hfresh
      have hcf : (staleIds (db.ac ac_table) (now - timeout_seconds)).contains r.icao24
          = false := by
        rw [← Bool.not_eq_true]
        intro hc
        exact hnot ((contains_iff_mem_str _ _).mp hc)
      constructor
      · rw [hacEq]
        exact List.mem_filter.mpr ⟨hr, by rw [hcf]; rfl⟩
      · intro p hp hpr
        rw [hposEq]
        refine List.mem_filter.mpr ⟨hp, ?_⟩
        rw [hpr, hcf]
        rfl
    · intro hids
      exact hnoStale (by rw [hids]; rfl)

/-- C4 witness: sweeping the single-aircraft database `dbSWRa`
(`last_seen = 2000`) with `timeout 10` at `now = 5000`. -/
theorem cleanup_sweep_correct_witness :
    ((dbSWRa.ac "aircraft").map (fun r => r.icao24)).Nodup
    ∧ ((∀ r ∈ dbSWRa.ac "aircraft", r.last_seen < 5000 - 10 →
        (∀ x ∈ (cleanup_old_aircraft noFail dbSWRa "aircraft" "positions" 10
            5000).1.ac "aircraft", x.icao24 ≠ r.icao24)
        ∧ ∀ p ∈ ((cleanup_old_aircraft noFail dbSWRa "aircraft" "positions" 10
            5000).1.pos "positions").rows, p.icao24 ≠ r.icao24)
      ∧ (∀ r ∈ dbSWRa.ac "aircraft", 5000 - r.last_seen ≤ 10 →
          r ∈ (cleanup_old_aircraft noFail dbSWRa "aircraft" "positions" 10
              5000).1.ac "aircraft"
          ∧ ∀ p ∈ (dbSWRa.pos "positions").rows, p.icao24 = r.icao24 →
              p ∈ ((cleanup_old_aircraft noFail dbSWRa "aircraft" "positions" 10
                5000).1.pos "positions").rows)
      ∧ (staleIds (dbSWRa.ac "aircraft") (5000 - 10) = [] →
          cleanup_old_aircraft noFail dbSWRa "aircraft" "positions" 10 5000
            = (dbSWRa, CleanOutcome.noStale))
      ∧ (dbSWRa.setPos "positions" (deletePositions (dbSWRa.pos "positions")
            (staleIds (dbSWRa.ac "aircraft") (5000 - 10)))).ac "aircraft"
          = dbSWRa.ac "aircraft") :=
  ⟨by decide,
   cleanup_sweep_correct dbSWRa "aircraft" "positions" 10 5000 (by decide)⟩

/-! ## Claim theorems: last-position lookup -/

/-- In a list pairwise ascending in a numeric key, two members with strictly
increasing keys occur as a two-element sublist in that order. -/
theorem pair_sublist_of_pairwise_le (key : LocRow → Nat) {L : List LocRow}
    (hL : L.Pairwise (fun a b => key a ≤ key b)) {x y : LocRow} (hx : x ∈ L)
    (hy : y ∈ L) (hxy : key x < key y) : List.Sublist [x, y] L := by
  induction L with
  | nil => cases hx
  | cons z zs ih =>
    obtain ⟨hz, hzs⟩ := List.pairwise_cons.mp hL
    rcases List.mem_cons.mp hx with rfl | hx'
    · rcases List.mem_cons.mp hy with hyz | hy'
      · subst hyz
        omega
      · exact List.Sublist.cons₂ x (List.singleton_sublist.mpr hy')
    · rcases List.mem_cons.mp hy with hyz | hy'
      · have hzx := hz x hx'
        subst hyz
        omega
      · exact List.Sublist.cons z (ih hzs hx' hy')

/-- Head of the stable descending-timestamp sort of a list that is ascending
in `id` with distinct ids: it is a member carrying the maximum timestamp and,
among entries of that timestamp, the minimum id. -/
theorem desc_sort_head_spec (L : List LocRow)
    (hids : (L.map (fun a => a.id)).Nodup)
    (hpair : L.Pairwise (fun a b => (a : LocRow).id ≤ b.id)) (r : LocRow)
    (tail : List LocRow)
    (hc : List.insertionSort (fun a b => (b : LocRow).timestamp ≤ a.timestamp) L
      = r :: tail) :
    r ∈ L ∧ ∀ x ∈ L, x.timestamp ≤ r.timestamp
      ∧ (x.timestamp = r.timestamp → r.id ≤ x.id) := by
  haveI : IsTotal LocRow (fun a b => b.timestamp ≤ a.timestamp) :=
    ⟨fun a b => le_total b.timestamp a.timestamp⟩
  haveI : IsTrans LocRow (fun a b => b.timestamp ≤ a.timestamp) :=
    ⟨fun _ _ _ hab hbc => le_trans hbc hab⟩
  have hperm : List.Perm
      (List.insertionSort (fun a b => (b : LocRow).timestamp ≤ a.timestamp) L) L :=
    List.perm_insertionSort _ L
  have hsort : List.Sorted (fun a b => (b : LocRow).timestamp ≤ a.timestamp)
      (r :: tail) := by
    rw [← hc]
    exact List.sorted_insertionSort _ L
  have hrmem : r ∈ L := hperm.mem_iff.mp (by rw [hc]; exact List.mem_cons_self r tail)
  refine ⟨hrmem, ?_⟩
  intro x hx
  have hx2 : x ∈ r :: tail := by
    rw [← hc]
    exact hperm.mem_iff.mpr hx
  have hts : x.timestamp ≤ r.timestamp := by
    rcases List.mem_cons.mp hx2 with rfl | hx'
    · exact le_refl _
    · exact List.rel_of_sorted_cons hsort x hx'
  refine ⟨hts, ?_⟩
  intro hteq
  by_contra hlt
  push_neg at hlt
  have hsub : List.Sublist [x, r] L :=
    pair_sublist_of_pairwise_le (fun a => a.id) hpair hx hrmem hlt
  have hpairxr : (fun a b => (b : LocRow).timestamp ≤ a.timestamp) x r :=
    le_of_eq hteq.symm
  have hstab : List.Sublist [x, r] (r :: tail) := by
    rw [← hc]
    exact List.pair_sublist_insertionSort hpairxr hsub
  have hxr : x ≠ r := by
    intro he
    rw [he] at hlt
    omega
  rcases List.sublist_cons_iff.mp hstab with hsub' | ⟨s, hs, _⟩
  · have hrtail : r ∈ tail := hsub'.subset (by simp)
    have hndL : (r :: tail).Nodup := by
      rw [← hc]
      exact hperm.nodup_iff.mpr (List.Nodup.of_map _ hids)
    exact absurd hrtail (List.nodup_cons.mp hndL).1
  · injection hs with h1 _
    exact hxr h1

/-- C1, amended: `get_last_location` answers `none` exactly when the aircraft
has no row in the hard-wired `positions` table, and otherwise it returns the
projection of a history row of the aircraft carrying the maximum `timestamp`
and, among the rows sharing that maximum timestamp, the MINIMUM surrogate
`id` (the earliest inserted of the latest batch, because Python's stable
descending sort keeps the ascending fetch order inside a tie group), under
the AUTOINCREMENT invariant that surrogate ids are distinct. -/
theorem get_last_location_spec (db : DB) (icao : String)
    (hnd : ((db.pos "positions").rows.map (fun p => p.id)).Nodup) :
    (get_last_location db icao = none ↔
      (db.pos "positions").rows.filter (fun p => p.icao24 == icao) = [])
    ∧ ∀ r, get_last_location db icao = some r →
        ∃ p, p ∈ (db.pos "positions").rows.filter (fun p => p.icao24 == icao)
          ∧ PosRow.toLoc p = r
          ∧ ∀ q ∈ (db.pos "positions").rows.filter (fun p => p.icao24 == icao),
              q.timestamp ≤ p.timestamp
              ∧ (q.timestamp = p.timestamp → p.id ≤ q.id) := by
  haveI : IsTotal PosRow (fun a b => a.id ≤ b.id) :=
    ⟨fun a b => Nat.le_total a.id b.id⟩
  haveI : IsTrans PosRow (fun a b => a.id ≤ b.id) :=
    ⟨fun _ _ _ hab hbc => Nat.le_trans hab hbc⟩
  have hgl : get_last_location db icao
      = (List.insertionSort (fun a b => (b : LocRow).timestamp ≤ a.timestamp)
          ((List.insertionSort (fun a b => (a : PosRow).id ≤ b.id)
            ((db.pos "positions").rows.filter (fun p => p.icao24 == icao))).map
              PosRow.toLoc)).head? := rfl
  have hL1pair : ((List.insertionSort (fun a b => (a : PosRow).id ≤ b.id)
      ((db.pos "positions").rows.filter (fun p => p.icao24 == icao))).map
        PosRow.toLoc).Pairwise (fun a b => (a : LocRow).id ≤ b.id) := by
    rw [List.pairwise_map]
    have hsort1 : List.Sorted (fun a b => (a : PosRow).id ≤ b.id)
        (List.insertionSort (fun a b => (a : PosRow).id ≤ b.id)
          ((db.pos "positions").rows.filter (fun p => p.icao24 == icao))) :=
      List.sorted_insertionSort _ _
    exact hsort1
  have hL1ids : (((List.insertionSort (fun a b => (a : PosRow).id ≤ b.id)
      ((db.pos "positions").rows.filter (fun p => p.icao24 == icao))).map
        PosRow.toLoc).map (fun a => a.id)).Nodup := by
    rw [List.map_map]
    have hsubl : List.Sublist
        (((db.pos "positions").rows.filter (fun p => p.icao24 == icao)).map
          (fun p => p.id))
        (((db.pos "positions").rows).map (fun p => p.id)) :=
      (List.filter_sublist _).map _
    have hfil : (((db.pos "positions").rows.filter (fun p => p.icao24 == icao)).map
        (fun p => p.id)).Nodup := List.Nodup.sublist hsubl hnd
    have hperm1 : List.Perm
        ((List.insertionSort (fun a b => (a : PosRow).id ≤ b.id)
          ((db.pos "positions").rows.filter (fun p => p.icao24 == icao))).map
            (fun p => (PosRow.toLoc p).id))
        (((db.pos "positions").rows.filter (fun p => p.icao24 == icao)).map
          (fun p => (PosRow.toLoc p).id)) :=
      (List.perm_insertionSort _ _).map _
    exact hperm1.nodup_iff.mpr hfil
  have hlen : (List.insertionSort (fun a b => (b : LocRow).timestamp ≤ a.timestamp)
      ((List.insertionSort (fun a b => (a : PosRow).id ≤ b.id)
        ((db.pos "positions").rows.filter (fun p => p.icao24 == icao))).map
          PosRow.toLoc)).length
      = ((db.pos "positions").rows.filter (fun p => p.icao24 == icao)).length := by
    rw [List.length_insertionSort, List.length_map, List.length_insertionSort]
  constructor
  · rw [hgl, List.head?_eq_none_iff]
    constructor
    · intro h2
      rw [← List.length_eq_zero, ← hlen, h2]
      rfl
    · intro h0
      rw [h0]
      rfl
  · intro r hr
    rw [hgl] at hr
    cases hc : List.insertionSort (fun a b => (b : LocRow).timestamp ≤ a.timestamp)
        ((List.insertionSort (fun a b => (a : PosRow).id ≤ b.id)
          ((db.pos "positions").rows.filter (fun p => p.icao24 == icao))).map
            PosRow.toLoc) with
    | nil =>
      rw [hc] at hr
      simp at hr
    | cons y tail =>
      rw [hc, List.head?_cons, Option.some.injEq] at hr
      subst hr
      obtain ⟨hymem, hymax⟩ := desc_sort_head_spec _ hL1ids hL1pair y tail hc
      obtain ⟨p, hpl1, hptoloc⟩ := List.mem_map.mp hymem
      have hpl : p ∈ (db.pos "positions").rows.filter (fun p => p.icao24 == icao) :=
        (List.perm_insertionSort _ _).mem_iff.mp hpl1
      refine ⟨p, hpl, hptoloc, ?_⟩
      intro q hq
      have hql1 : q ∈ List.insertionSort (fun a b => (a : PosRow).id ≤ b.id)
          ((db.pos "positions").rows.filter (fun p => p.icao24 == icao)) :=
        (List.perm_insertionSort _ _).mem_iff.mpr hq
      have hqL1 := List.mem_map_of_mem PosRow.toLoc hql1
      obtain ⟨hts, hid⟩ := hymax _ hqL1
      have hyp : y.timestamp = p.timestamp := by
        rw [← hptoloc]
        rfl
      have hypid : y.id = p.id := by
        rw [← hptoloc]
        rfl
      constructor
      · rw [← hyp]
        exact hts
      · intro hteq
        rw [← hypid]
        have hqy : q.timestamp = y.timestamp := by rw [hteq, hyp]
        exact hid hqy

/-- C1 witness: the characterization applied to the three-row tie fixture. -/
theorem get_last_location_spec_witness :
    ((dbTie.pos "positions").rows.map (fun p => p.id)).Nodup
    ∧ ((get_last_location dbTie "AAA" = none ↔
        (dbTie.pos "positions").rows.filter (fun p => p.icao24 == "AAA") = [])
      ∧ ∀ r, get_last_location dbTie "AAA" = some r →
          ∃ p, p ∈ (dbTie.pos "positions").rows.filter (fun p => p.icao24 == "AAA")
            ∧ PosRow.toLoc p = r
            ∧ ∀ q ∈ (dbTie.pos "positions").rows.filter (fun p => p.icao24 == "AAA"),
                q.timestamp ≤ p.timestamp
                ∧ (q.timestamp = p.timestamp → p.id ≤ q.id)) :=
  ⟨by decide, get_last_location_spec dbTie "AAA" (by decide)⟩
